import Mathlib

/-!
Verification of the newsletter-notification webhook flow of the blog
(`src/pages/api/newsletter/notify.ts`) and two helpers of the Hashnode API
client (`src/lib/hashnode/api.ts`), as a shallow embedding in Lean.

Strings from JavaScript are modelled as Lean `String`; byte sequences as
`List Nat` (each element < 256); JavaScript values that may be `undefined`
or `null` are modelled as `Option`.  `node:crypto`'s
`createHmac("sha256", secret).update(payload).digest("hex")` is embedded as
a full executable HMAC-SHA-256 over the UTF-8 bytes of the strings.
-/

set_option autoImplicit false

namespace Blog

/-! ### Bytes, UTF-8, hex -/

/-- Truncation to a 32-bit word, `x >>> 0` style. -/
def w32 (x : Nat) : Nat := x % 4294967296

/-- UTF-8 encoding of a single character (as `Buffer.from(s, "utf8")` would). -/
def utf8Char (c : Char) : List Nat :=
  let n := c.toNat
  if n < 128 then [n]
  else if n < 2048 then [192 + n / 64, 128 + n % 64]
  else if n < 65536 then [224 + n / 4096, 128 + n / 64 % 64, 128 + n % 64]
  else [240 + n / 262144, 128 + n / 4096 % 64, 128 + n / 64 % 64, 128 + n % 64]

/-- UTF-8 bytes of a string. -/
def utf8 (s : String) : List Nat := s.data.flatMap utf8Char

/-- Lower-case hex digit for a nibble (any value ≥ 16 cannot arise from `n % 16`). -/
def hexChar : Nat → Char
  | 0 => '0' | 1 => '1' | 2 => '2' | 3 => '3' | 4 => '4' | 5 => '5'
  | 6 => '6' | 7 => '7' | 8 => '8' | 9 => '9' | 10 => 'a' | 11 => 'b'
  | 12 => 'c' | 13 => 'd' | 14 => 'e' | 15 => 'f' | _ => '0'

/-- Two lower-case hex digits of one byte. -/
def byteHex (b : Nat) : List Char := [hexChar (b / 16 % 16), hexChar (b % 16)]

/-- Hex string (as a char list) of a byte sequence, like `digest("hex")`. -/
def bytesHex (bs : List Nat) : List Char := bs.flatMap byteHex

/-- Big-endian bytes of a number, fixed width `n`. -/
def beBytes : Nat → Nat → List Nat
  | 0, _ => []
  | n + 1, x => beBytes n (x / 256) ++ [x % 256]

/-! ### SHA-256 -/

/-- Right rotation of a 32-bit word. -/
def rotr32 (n x : Nat) : Nat := w32 ((x >>> n) ||| (x <<< (32 - n)))

def bnot32 (x : Nat) : Nat := x ^^^ 4294967295

def ch32 (x y z : Nat) : Nat := (x &&& y) ^^^ (bnot32 x &&& z)

def maj32 (x y z : Nat) : Nat := (x &&& y) ^^^ (x &&& z) ^^^ (y &&& z)

def bigSigma0 (x : Nat) : Nat := rotr32 2 x ^^^ rotr32 13 x ^^^ rotr32 22 x

def bigSigma1 (x : Nat) : Nat := rotr32 6 x ^^^ rotr32 11 x ^^^ rotr32 25 x

def smallSigma0 (x : Nat) : Nat := rotr32 7 x ^^^ rotr32 18 x ^^^ (x >>> 3)

def smallSigma1 (x : Nat) : Nat := rotr32 17 x ^^^ rotr32 19 x ^^^ (x >>> 10)

/-- The 64 SHA-256 round constants. -/
def sha256K : List Nat :=
  [1116352408, 1899447441, 3049323471, 3921009573, 961987163, 1508970993,
   2453635748, 2870763221, 3624381080, 310598401, 607225278, 1426881987,
   1925078388, 2162078206, 2614888103, 3248222580, 3835390401, 4022224774,
   264347078, 604807628, 770255983, 1249150122, 1555081692, 1996064986,
   2554220882, 2821834349, 2952996808, 3210313671, 3336571891, 3584528711,
   113926993, 338241895, 666307205, 773529912, 1294757372, 1396182291,
   1695183700, 1986661051, 2177026350, 2456956037, 2730485921, 2820302411,
   3259730800, 3345764771, 3516065817, 3600352804, 4094571909, 275423344,
   430227734, 506948616, 659060556, 883997877, 958139571, 1322822218,
   1537002063, 1747873779, 1955562222, 2024104815, 2227730452, 2361852424,
   2428436474, 2756734187, 3204031479, 3329325298]

/-- Hash state: eight 32-bit working variables. -/
structure Sha256State where
  a : Nat
  b : Nat
  c : Nat
  d : Nat
  e : Nat
  f : Nat
  g : Nat
  h : Nat

/-- SHA-256 initial hash value. -/
def sha256Init : Sha256State :=
  ⟨1779033703, 3144134277, 1013904242, 2773480762,
   1359893119, 2600822924, 528734635, 1541459225⟩

/-- One compression round. -/
def sha256Round (st : Sha256State) (k w : Nat) : Sha256State :=
  let t1 := w32 (st.h + bigSigma1 st.e + ch32 st.e st.f st.g + k + w)
  let t2 := w32 (bigSigma0 st.a + maj32 st.a st.b st.c)
  ⟨w32 (t1 + t2), st.a, st.b, st.c, w32 (st.d + t1), st.e, st.f, st.g⟩

/-- Extend the 16 message words of a block to the 64-entry schedule
(`fuel` counts the remaining extension steps, 48 from the start). -/
def extendW : Nat → List Nat → List Nat
  | 0, w => w
  | fuel + 1, w =>
      let l := w.length
      extendW fuel (w ++ [w32 (smallSigma1 (w.getD (l - 2) 0) + w.getD (l - 7) 0 +
        smallSigma0 (w.getD (l - 15) 0) + w.getD (l - 16) 0)])

/-- Pack bytes into big-endian 32-bit words, four bytes per word. -/
def wordsOfBytes : List Nat → List Nat
  | b0 :: b1 :: b2 :: b3 :: rest =>
      (((b0 * 256 + b1) * 256 + b2) * 256 + b3) :: wordsOfBytes rest
  | _ => []

/-- Process one 64-byte block. -/
def sha256Block (st : Sha256State) (block : List Nat) : Sha256State :=
  let ws := extendW 48 (wordsOfBytes block)
  let r := (ws.zip sha256K).foldl (fun s p => sha256Round s p.2 p.1) st
  ⟨w32 (st.a + r.a), w32 (st.b + r.b), w32 (st.c + r.c), w32 (st.d + r.d),
   w32 (st.e + r.e), w32 (st.f + r.f), w32 (st.g + r.g), w32 (st.h + r.h)⟩

/-- SHA-256 padding: 0x80, zeros to 56 mod 64, then the 8-byte bit length. -/
def sha256Pad (msg : List Nat) : List Nat :=
  msg ++ [128] ++ List.replicate ((119 - msg.length % 64) % 64) 0 ++
    beBytes 8 (msg.length * 8)

/-- Split into 64-byte chunks (`fuel` bounds the recursion by the list length). -/
def chunks64 : Nat → List Nat → List (List Nat)
  | 0, _ => []
  | _, [] => []
  | fuel + 1, l => l.take 64 :: chunks64 fuel (l.drop 64)

/-- Serialize the final state, big-endian. -/
def sha256Digest (st : Sha256State) : List Nat :=
  beBytes 4 st.a ++ beBytes 4 st.b ++ beBytes 4 st.c ++ beBytes 4 st.d ++
  beBytes 4 st.e ++ beBytes 4 st.f ++ beBytes 4 st.g ++ beBytes 4 st.h

/-- SHA-256 of a byte sequence, as 32 bytes. -/
def sha256 (msg : List Nat) : List Nat :=
  let padded := sha256Pad msg
  sha256Digest ((chunks64 padded.length padded).foldl sha256Block sha256Init)

/-! ### HMAC-SHA-256 (the semantics of `createHmac("sha256", secret)`) -/

/-- HMAC-SHA-256 over bytes (block size 64). -/
def hmacSha256 (key msg : List Nat) : List Nat :=
  let k0 := if key.length > 64 then sha256 key else key
  let kp := k0 ++ List.replicate (64 - k0.length) 0
  let ipad := kp.map (· ^^^ 0x36)
  let opad := kp.map (· ^^^ 0x5c)
  sha256 (opad ++ sha256 (ipad ++ msg))

/-- `createHmac("sha256", secret).update(payload).digest("hex")` on strings. -/
def hmacSha256Hex (secret payload : String) : String :=
  (bytesHex (hmacSha256 (utf8 secret) (utf8 payload))).asString

/-! ### Signature Verifier (`verifyHashnodeSignature`, notify.ts lines 26–35)

```ts
function verifyHashnodeSignature(payload, signature, secret): boolean {
  const expectedSignature = createHmac("sha256", secret)
    .update(payload)
    .digest("hex");
  return signature === expectedSignature;
}
```
-/

def verifyHashnodeSignature (payload signature secret : String) : Bool :=
  signature == hmacSha256Hex secret payload

/-! ### Template Processor (`getProcessedTemplate`, notify.ts lines 38–74)

The Brevo HTTP fetch is an external collaborator; it is supplied as an
already-completed `HttpResponse` value.  The placeholder regex
`\{\{\s*params\.<key>\s*\}\}` (the keys used by the handler contain no regex
metacharacters, so `<key>` is a literal) is embedded as an explicit scanner
over the character list; `String.prototype.replace` with the `g` flag scans
left to right and replaces non-overlapping matches.
-/

/-- Does `needle` occur as a prefix of `hay`? -/
def startsWithChars : List Char → List Char → Bool
  | [], _ => true
  | _ :: _, [] => false
  | a :: as, b :: bs => a == b && startsWithChars as bs

/-- JavaScript `\s` / `trim()` whitespace (the characters that can occur here). -/
def isJsWhitespace (c : Char) : Bool :=
  c == ' ' || c == '\t' || c == '\n' || c == '\r' || c == '\x0b' || c == '\x0c' ||
  c == '\u00A0' || c == '\u2028' || c == '\u2029' || c == '\uFEFF'

/-- Match `\{\{\s*params\.<key>\s*\}\}` at the head of the text; on success
return the text after the match.  (`\s*` is greedy, but since `p` and the
closing brace are not whitespace the maximal-run reading is the only one.) -/
def matchParamPh (key : List Char) : List Char → Option (List Char)
  | '\x7b' :: '\x7b' :: rest =>
      let r1 := rest.dropWhile isJsWhitespace
      if startsWithChars ((String.data "params.") ++ key) r1 then
        let r2 := r1.drop (7 + key.length)
        let r3 := r2.dropWhile isJsWhitespace
        match r3 with
        | '\x7d' :: '\x7d' :: r4 => some r4
        | _ => none
      else none
  | _ => none

/-- Global regex replacement of the placeholder for `key` by `value`
(`fuel` bounds the recursion by the text length). -/
def replaceAllPh (key value : List Char) : Nat → List Char → List Char
  | 0, s => s
  | _, [] => []
  | fuel + 1, c :: cs =>
      match matchParamPh key (c :: cs) with
      | some rest => value ++ replaceAllPh key value fuel rest
      | none => c :: replaceAllPh key value fuel cs

/-- `s.replace(new RegExp("\\{\\{\\s*params\\." + key + "\\s*\\}\\}", "g"), value)`. -/
def replacePlaceholder (s key value : String) : String :=
  (replaceAllPh key.data value.data s.data.length s.data).asString

/-- The `for (const [key, value] of Object.entries(params))` loop applied to one
string.  The source updates `htmlContent` and `subject` in the same loop; the two
strings are updated independently, so applying the loop to each separately is
equivalent. -/
def substituteParams (params : List (String × String)) (s : String) : String :=
  params.foldl (fun acc kv => replacePlaceholder acc kv.1 kv.2) s

/-- Sender record of a Brevo template (`templateData.sender`), fields possibly absent. -/
structure BrevoSender where
  name : Option String
  email : Option String
deriving DecidableEq, Repr

/-- `templateData` as read from the Brevo template-fetch response
(`htmlContent` and `subject` are cast to `string` by the source). -/
structure BrevoTemplateData where
  htmlContent : String
  subject : String
  sender : Option BrevoSender
deriving DecidableEq, Repr

/-- A completed HTTP response from an external collaborator. -/
structure HttpResponse (α : Type) where
  ok : Bool
  status : Nat
  body : α
deriving DecidableEq, Repr

structure SenderInfo where
  name : String
  email : String
deriving DecidableEq, Repr

structure ProcessedTemplate where
  htmlContent : String
  subject : String
  sender : SenderInfo
deriving DecidableEq, Repr

/-- JavaScript `x || dflt` for a possibly-undefined string (empty string is falsy). -/
def orFalsy (o : Option String) (dflt : String) : String :=
  match o with
  | none => dflt
  | some s => if s == "" then dflt else s

/-- `getProcessedTemplate`: throws (`Except.error`) when the template fetch was
not ok, otherwise substitutes every placeholder and applies the default sender. -/
def getProcessedTemplate (templateResponse : HttpResponse BrevoTemplateData)
    (params : List (String × String)) : Except String ProcessedTemplate :=
  if !templateResponse.ok then
    .error ("Failed to fetch template: " ++ toString templateResponse.status)
  else
    .ok { htmlContent := substituteParams params templateResponse.body.htmlContent,
          subject := substituteParams params templateResponse.body.subject,
          sender := {
            name := orFalsy (templateResponse.body.sender.bind (fun s => s.name))
              "The Learning Machine",
            email := orFalsy (templateResponse.body.sender.bind (fun s => s.email))
              "newsletter@thelearningmachine.dev" } }

/-! ### Webhook Handler (`POST`, notify.ts lines 76–208)

`JSON.parse` and the two outbound `fetch` calls are external collaborators:
the parser is passed in as a function, the two HTTP responses as completed
values.  The handler result additionally records which collaborators were
consulted, in order (`calls`), so that "does not call X" is expressible.
`Date.now()` is a single `now` parameter (milliseconds); `toISOString()` is
injective on milliseconds, so scheduled times stay in milliseconds.
`import.meta.env` is the `Env` record.  The response body is modelled per
branch by a constructor carrying exactly the data the source serializes.
-/

/-- The fields of the parsed webhook payload that the handler reads.
`JSON.parse` performs no validation, so every field may be absent. -/
structure HashnodeCoverImage where
  url : Option String
deriving DecidableEq, Repr

structure HashnodePost where
  title : Option String
  slug : Option String
  brief : Option String
  coverImage : Option HashnodeCoverImage
deriving DecidableEq, Repr

structure HashnodeWebhookPayload where
  event : Option String
  post : Option HashnodePost
deriving DecidableEq, Repr

/-- Configuration read from `import.meta.env`. -/
structure Env where
  hashnodeSecret : Option String
  brevoApiKey : Option String
  brevoListId : Option String
  brevoTemplateId : Option String
deriving DecidableEq, Repr

/-- JavaScript truthiness of a possibly-absent string (`undefined`/`null` and `""` are falsy). -/
def truthy : Option String → Bool
  | none => false
  | some s => !(s == "")

/-- `Number.parseInt(s, 10)`: optional sign after whitespace, then a decimal-digit
prefix; `none` models `NaN`. -/
def parseIntJs (s : String) : Option Int :=
  let l := s.data.dropWhile isJsWhitespace
  let sign : Int := match l with
    | '-' :: _ => -1
    | _ => 1
  let l2 := match l with
    | '-' :: r => r
    | '+' :: r => r
    | _ => l
  let ds := l2.takeWhile Char.isDigit
  if ds.isEmpty then none
  else some (sign * (ds.foldl (fun n c => n * 10 + (c.toNat - 48)) 0 : Nat))

/-- The body of the Brevo campaign-creation request (`campaignData`).
`recipients.listIds` is flattened to `listIds`; `scheduledAt` stays in
milliseconds. -/
structure CampaignData where
  name : String
  subject : String
  sender : SenderInfo
  htmlContent : String
  listIds : List (Option Int)
  scheduledAtMs : Nat
deriving DecidableEq, Repr

/-- The completed campaign-creation response: `errorJson` is what `.json()` of a
failure response yields (`none` models the `.catch(() => ({}))` fallback);
`id` is `campaignResult.id` of a success response (absent fields allowed). -/
structure CampaignCreateResponse where
  ok : Bool
  errorJson : Option String
  id : Option String
deriving DecidableEq, Repr

/-- One consultation of an external collaborator, in the order the handler
performs them.  The handler never consults a post fetcher: the post data is
taken from the webhook payload itself. -/
inductive Call
  | parseBody
  | templateFetch (templateId : Option Int)
  | campaignCreate (data : CampaignData)
deriving DecidableEq, Repr

/-- The serialized response of each terminal branch of the handler. -/
inductive RespBody
  | unauthorized
  | eventIgnored (event : Option String)
  | invalidPayload
  | notConfigured
  | campaignFailed (details : Option String)
  | success (campaignId : Option String) (scheduledAtMs : Nat) (articleTitle : String)
  | caught (message : String)
deriving DecidableEq, Repr

structure HandlerResult where
  status : Nat
  body : RespBody
  calls : List Call
deriving DecidableEq, Repr

def POST (env : Env) (now : Nat) (rawBody : String) (signature : Option String)
    (parseJson : String → Except String HashnodeWebhookPayload)
    (templateResponse : HttpResponse BrevoTemplateData)
    (campaignResponse : CampaignCreateResponse) : HandlerResult :=
  -- `if (hashnodeSecret && signature) { if (!verifyHashnodeSignature(...)) return 401 }`
  if truthy env.hashnodeSecret && truthy signature &&
      !verifyHashnodeSignature rawBody (signature.getD "") (env.hashnodeSecret.getD "") then
    ⟨401, .unauthorized, []⟩
  else
    -- `JSON.parse(rawBody)`; a throw lands in the surrounding catch → 500
    match parseJson rawBody with
    | .error e => ⟨500, .caught e, [.parseBody]⟩
    | .ok payload =>
      -- `if (payload.event !== "post_published")` → 200 "Event ignored"
      if payload.event != some "post_published" then
        ⟨200, .eventIgnored payload.event, [.parseBody]⟩
      -- `if (!payload.post?.title || !payload.post?.slug)` → 400
      else if !truthy (payload.post.bind (fun p => p.title)) ||
          !truthy (payload.post.bind (fun p => p.slug)) then
        ⟨400, .invalidPayload, [.parseBody]⟩
      -- `if (!brevoApiKey || !brevoListId || !brevoTemplateId)` → 500
      else if !truthy env.brevoApiKey || !truthy env.brevoListId ||
          !truthy env.brevoTemplateId then
        ⟨500, .notConfigured, [.parseBody]⟩
      else
        let listId := parseIntJs (env.brevoListId.getD "")
        let templateId := parseIntJs (env.brevoTemplateId.getD "")
        let title := (payload.post.bind (fun p => p.title)).getD ""
        let slug := (payload.post.bind (fun p => p.slug)).getD ""
        let articleUrl := "https://thelearningmachine.dev/articles/" ++ slug
        let templateParams : List (String × String) :=
          [("title", title),
           ("brief", orFalsy (payload.post.bind (fun p => p.brief)) ""),
           ("articleUrl", articleUrl),
           ("coverImageUrl",
             orFalsy ((payload.post.bind (fun p => p.coverImage)).bind (fun ci => ci.url)) "")]
        match getProcessedTemplate templateResponse templateParams with
        | .error e => ⟨500, .caught e, [.parseBody, .templateFetch templateId]⟩
        | .ok template =>
          -- `const scheduledAt = new Date(Date.now() + 4 * 60 * 1000)`
          let scheduledAt := now + 4 * 60 * 1000
          let campaignData : CampaignData :=
            { name := "New Post: " ++ title ++ " - " ++ toString now,
              subject := template.subject,
              sender := template.sender,
              htmlContent := template.htmlContent,
              listIds := [listId],
              scheduledAtMs := scheduledAt }
          if !campaignResponse.ok then
            ⟨500, .campaignFailed campaignResponse.errorJson,
              [.parseBody, .templateFetch templateId, .campaignCreate campaignData]⟩
          else
            ⟨200, .success campaignResponse.id scheduledAt title,
              [.parseBody, .templateFetch templateId, .campaignCreate campaignData]⟩

/-! ### `getAdjacentPosts` (api.ts lines 515–533)

The post list comes from `getAllPosts(50)`, an external GraphQL fetch; it is
supplied as the `allPosts` parameter.  Only the `slug` field of a post is
inspected; `id` keeps distinct posts distinct. -/

structure Post where
  id : String
  slug : String
deriving DecidableEq, Repr

/-- Return type `{ older: Post | null, newer: Post | null }`. -/
structure AdjacentPosts where
  older : Option Post
  newer : Option Post
deriving DecidableEq, Repr

/-- `findIndex` returning `-1` is modelled by `findIdx?` returning `none`;
the guarded in-bounds accesses `allPosts[currentIndex ∓ 1]` by `get?`. -/
def getAdjacentPosts (allPosts : List Post) (currentSlug : String) : AdjacentPosts :=
  match allPosts.findIdx? (fun post => post.slug == currentSlug) with
  | none => { older := none, newer := none }
  | some currentIndex =>
      { newer := if currentIndex > 0 then allPosts.get? (currentIndex - 1) else none,
        older := if currentIndex < allPosts.length - 1 then allPosts.get? (currentIndex + 1)
                 else none }

/-! ### `extractHeadingsFromHtml` (api.ts lines 444–479)

The heading regex
`<h([2-6])(?:[^>]*id=["']([^"']+)["'])?[^>]*>(.*?)<\/h\1>` with flags `gi` is
embedded as an explicit backtracking scanner.  The alternatives the regex
engine explores, in order: the optional id group is greedy, and inside it
`[^>]*` backtracks from the longest prefix; for a fixed prefix the id content
`[^"']+` can only be the maximal quote-free run; `[^>]*>` after the group is
deterministic (it must stop at the first `>`); the body `(.*?)` is lazy and
`.` does not cross line terminators; `\1` requires the same heading digit.
The `g` loop resumes after each match and advances one character when no
match starts at the current position. -/

structure ExtractedHeading where
  depth : Nat
  slug : String
  text : String
deriving DecidableEq, Repr

def isQuoteChar (c : Char) : Bool := c == '\x22' || c == '\x27'

/-- Case-insensitive character comparison (flag `i`; ASCII letters here). -/
def ciEqChar (a b : Char) : Bool := a.toLower == b.toLower

/-- The capture class `[2-6]`. -/
def isHeadingDigit (c : Char) : Bool :=
  c == '2' || c == '3' || c == '4' || c == '5' || c == '6'

/-- Line terminators, which `.` does not match without the `s` flag. -/
def isLineTerm (c : Char) : Bool :=
  c == '\n' || c == '\r' || c == '\u2028' || c == '\u2029'

/-- Does the text start with the closing tag `</h<digit>>`? -/
def startsCloser (d : Char) : List Char → Bool
  | '<' :: '/' :: hch :: dch :: '>' :: _ => ciEqChar hch 'h' && dch == d
  | _ => false

/-- Lazy body then closing tag: the shortest line-terminator-free prefix that is
followed by `</h<digit>>`; returns the body and the text after the closer. -/
def findCloser (d : Char) : List Char → Option (List Char × List Char)
  | [] => none
  | c :: cs =>
      if startsCloser d (c :: cs) then some ([], (c :: cs).drop 5)
      else if isLineTerm c then none
      else
        match findCloser d cs with
        | some (body, rest) => some (c :: body, rest)
        | none => none

/-- `[^>]*>`: stop at the first `>`; `none` when the text has no `>`. -/
def afterGt (l : List Char) : Option (List Char) :=
  let t := l.takeWhile (fun c => !(c == '>'))
  if t.length < l.length then some (l.drop (t.length + 1)) else none

/-- One way of matching `id=["']([^"']+)["']` at the given position followed by
`[^>]*>`: returns the captured id and the text after the `>` of the open tag. -/
def tryIdAt (r : List Char) : Option (String × List Char) :=
  match r with
  | i :: d :: '=' :: q :: rest =>
      if ciEqChar i 'i' && ciEqChar d 'd' && isQuoteChar q then
        let g := rest.takeWhile (fun c => !isQuoteChar c)
        if decide (0 < g.length) && decide (g.length < rest.length) then
          (afterGt (rest.drop (g.length + 1))).map (fun tail => (g.asString, tail))
        else none
      else none
  | _ => none

/-- All ways of completing the open tag after `<h<digit>`, in the order the
engine tries them: the greedy optional id group with its `[^>]*` prefix from
longest to empty, then the group skipped entirely.  Each entry is the captured
id (`""` for a skipped group, the `match[2] || ""` default) and the text after
the open tag's `>`. -/
def idCandidates (rest : List Char) : List (String × List Char) :=
  let amax := (rest.takeWhile (fun c => !(c == '>'))).length
  ((List.range (amax + 1)).filterMap (fun k => tryIdAt (rest.drop (amax - k)))) ++
    (match afterGt rest with
     | some tail => [("", tail)]
     | none => [])

/-- First candidate whose lazy body and closing tag also match; returns
(captured id, raw body, text after the whole match). -/
def firstHeadingMatch (d : Char) : List (String × List Char) → Option (String × String × List Char)
  | [] => none
  | (idc, after) :: cands =>
      match findCloser d after with
      | some (body, rest) => some (idc, body.asString, rest)
      | none => firstHeadingMatch d cands

/-- Full regex match attempt at the current position: returns the heading digit,
captured id, raw body text, and the text after the match. -/
def matchHeadingAt : List Char → Option (Char × String × String × List Char)
  | '<' :: hch :: dch :: rest =>
      if ciEqChar hch 'h' && isHeadingDigit dch then
        (firstHeadingMatch dch (idCandidates rest)).map (fun m => (dch, m.1, m.2.1, m.2.2))
      else none
  | _ => none

/-- `rawText.replace(/<[^>]+>/g, "")` (`fuel` bounds the recursion). -/
def stripTags : Nat → List Char → List Char
  | 0, l => l
  | _, [] => []
  | fuel + 1, c :: cs =>
      if c == '<' then
        let t := cs.takeWhile (fun d => !(d == '>'))
        if decide (0 < t.length) && decide (t.length < cs.length) then
          stripTags fuel (cs.drop (t.length + 1))
        else c :: stripTags fuel cs
      else c :: stripTags fuel cs

/-- `trim()`. -/
def trimJs (l : List Char) : List Char :=
  ((l.dropWhile isJsWhitespace).reverse.dropWhile isJsWhitespace).reverse

/-- `\w` = `[A-Za-z0-9_]`. -/
def isWordChar (c : Char) : Bool :=
  (decide ('a' ≤ c) && decide (c ≤ 'z')) || (decide ('A' ≤ c) && decide (c ≤ 'Z')) ||
    c.isDigit || c == '_'

/-- `replace(/\s+/g, "-")`: each maximal whitespace run becomes one hyphen. -/
def collapseWsToHyphen : Nat → List Char → List Char
  | 0, l => l
  | _, [] => []
  | fuel + 1, c :: cs =>
      if isJsWhitespace c then '-' :: collapseWsToHyphen fuel (cs.dropWhile isJsWhitespace)
      else c :: collapseWsToHyphen fuel cs

/-- `replace` of each maximal hyphen run (regex "hyphen, plus, flag g") by one hyphen. -/
def collapseHyphens : Nat → List Char → List Char
  | 0, l => l
  | _, [] => []
  | fuel + 1, c :: cs =>
      if c == '-' then '-' :: collapseHyphens fuel (cs.dropWhile (fun d => d == '-'))
      else c :: collapseHyphens fuel cs

/-- The slug generated from the text when the heading has no id:
`text.toLowerCase()`, drop chars outside `\w`, `\s`, hyphen; collapse `\s+` runs
to one hyphen, collapse hyphen runs to one hyphen, `trim()` (`toLowerCase` on the ASCII text seen here). -/
def slugFromText (text : List Char) : List Char :=
  let cleaned := (text.map Char.toLower).filter
    (fun c => isWordChar c || isJsWhitespace c || c == '-')
  let hyphened := collapseWsToHyphen cleaned.length cleaned
  trimJs (collapseHyphens hyphened.length hyphened)

/-- The `while ((match = headingRegex.exec(html)) !== null)` loop
(`fuel` bounds the recursion by the text length). -/
def headingScan : Nat → List Char → List ExtractedHeading
  | 0, _ => []
  | _, [] => []
  | fuel + 1, c :: cs =>
      match matchHeadingAt (c :: cs) with
      | some (dch, idc, rawText, rest) =>
          let depth := dch.toNat - 48
          let text := (trimJs (stripTags rawText.data.length rawText.data)).asString
          let slug := if idc == "" then (slugFromText text.data).asString else idc
          (if text == "" then [] else [{ depth := depth, slug := slug, text := text }]) ++
            headingScan fuel rest
      | none => headingScan fuel cs

def extractHeadingsFromHtml (html : String) : List ExtractedHeading :=
  -- `if (!html) return []`: the only falsy string is the empty one
  if html == "" then []
  else headingScan html.data.length html.data

/-! ### Notions used by the claim statements -/

/-- Does `sub` occur as a contiguous segment of `hay`? -/
def hasSubChars : List Char → List Char → Bool
  | [], sub => sub.isEmpty
  | c :: cs, sub => startsWithChars sub (c :: cs) || hasSubChars cs sub

/-- Does the string `seg` occur inside `s` (e.g. "does the header carry a
`t=` segment")? -/
def containsSeg (s seg : String) : Bool := hasSubChars s.data seg.data

/-- Lower-case hexadecimal digits, the alphabet of `digest("hex")`. -/
def isLowerHexChar (c : Char) : Bool :=
  c.isDigit || (decide ('a' ≤ c) && decide (c ≤ 'f'))

/-- Does the placeholder for `key` occur anywhere in the text? -/
def phOccurs (key : List Char) : List Char → Bool
  | [] => false
  | c :: cs => (matchParamPh key (c :: cs)).isSome || phOccurs key cs

/-- Does the template string contain the `params.<key>` placeholder? -/
def hasPlaceholder (key s : String) : Bool := phOccurs key.data s.data

/-- Is this consultation a campaign-creation submission? -/
def isCampaignCreateCall : Call → Bool
  | .campaignCreate _ => true
  | _ => false

/-! ### Basic facts about the digest encoding -/

lemma beBytes_length (n x : Nat) : (beBytes n x).length = n := by
  induction n generalizing x with
  | zero => rfl
  | succ n ih => simp [beBytes, ih]

lemma sha256_length (msg : List Nat) : (sha256 msg).length = 32 := by
  simp [sha256, sha256Digest, beBytes_length]

lemma bytesHex_length (bs : List Nat) : (bytesHex bs).length = 2 * bs.length := by
  induction bs with
  | nil => rfl
  | cons b t ih =>
      simp only [bytesHex, List.flatMap_cons, List.length_append, List.length_cons] at *
      simp [byteHex, ih]
      omega

lemma length_asString (l : List Char) : (l.asString).length = l.length := rfl

lemma hmacSha256Hex_length (secret payload : String) :
    (hmacSha256Hex secret payload).length = 64 := by
  simp [hmacSha256Hex, hmacSha256, length_asString, bytesHex_length, sha256_length]

lemma isLowerHexChar_hexChar (n : Nat) : isLowerHexChar (hexChar n) = true := by
  unfold hexChar
  split <;> decide

lemma mem_bytesHex_isHex {c : Char} {bs : List Nat} (h : c ∈ bytesHex bs) :
    isLowerHexChar c = true := by
  induction bs with
  | nil => simp [bytesHex] at h
  | cons b t ih =>
      simp only [bytesHex, List.flatMap_cons, List.mem_append] at h
      rcases h with h | h
      · simp [byteHex] at h
        rcases h with h | h <;> (subst h; exact isLowerHexChar_hexChar _)
      · exact ih h

lemma mem_hmacSha256Hex_isHex {c : Char} {secret payload : String}
    (h : c ∈ (hmacSha256Hex secret payload).data) : isLowerHexChar c = true :=
  mem_bytesHex_isHex h

lemma hasSubChars_eq_false {hay : List Char} {n0 : Char} {ns : List Char}
    (h : ∀ c ∈ hay, c ≠ n0) : hasSubChars hay (n0 :: ns) = false := by
  induction hay with
  | nil => rfl
  | cons c cs ih =>
      have hc : (n0 == c) = false := beq_eq_false_iff_ne.mpr (Ne.symm (h c (by simp)))
      simp only [hasSubChars, startsWithChars, hc, Bool.false_and, Bool.false_or]
      exact ih (fun d hd => h d (List.mem_cons_of_mem _ hd))

/-! ### Facts about the signature verifier -/

lemma verify_self (secret payload : String) :
    verifyHashnodeSignature payload (hmacSha256Hex secret payload) secret = true := by
  simp [verifyHashnodeSignature]

lemma verify_of_ne {payload sig secret : String} (h : sig ≠ hmacSha256Hex secret payload) :
    verifyHashnodeSignature payload sig secret = false := by
  simp [verifyHashnodeSignature]
  exact h

/-- A header of the composite form `t=<timestamp>,v1=<hex digest>` is at least
70 characters, while the digest the verifier expects is exactly 64, so the
verifier rejects every such header. -/
lemma verify_composite_false (secret timestamp body : String) (innerSecret innerMsg : String) :
    verifyHashnodeSignature body
      ("t=" ++ timestamp ++ ",v1=" ++ hmacSha256Hex innerSecret innerMsg) secret = false := by
  apply verify_of_ne
  intro h
  have hlen := congrArg String.length h
  simp only [String.length_append, hmacSha256Hex_length] at hlen
  have h2 : "t=".length = 2 := rfl
  have h4 : ",v1=".length = 4 := rfl
  rw [h2, h4] at hlen
  omega

/-- C1 (amended).  The verifier compares the entire header string to
`hex(HMAC-SHA256(secret, body))`; it never parses `t=`/`v1=` segments nor
hashes `timestamp + "." + body`.  A header equal to that digest always
verifies, and the claim's composite header
`"t=" ++ timestamp ++ ",v1=" ++ hex(HMAC-SHA256(secret, timestamp + "." + body))`
never verifies. -/
theorem claim_C1 :
    (∀ secret body : String,
        verifyHashnodeSignature body (hmacSha256Hex secret body) secret = true) ∧
    (∀ secret timestamp body : String,
        verifyHashnodeSignature body
          ("t=" ++ timestamp ++ ",v1=" ++ hmacSha256Hex secret (timestamp ++ "." ++ body))
          secret = false) :=
  ⟨fun secret body => verify_self secret body,
   fun secret timestamp body =>
     verify_composite_false secret timestamp body secret (timestamp ++ "." ++ body)⟩

/-- C1 counterexample: with secret `"s"`, timestamp `"1"`, body `"b"`, the header
correctly formed by the claim's timestamped HMAC scheme does not verify (the
claim demands `true`). -/
theorem claim_C1_counterexample :
    verifyHashnodeSignature "b"
      ("t=" ++ "1" ++ ",v1=" ++ hmacSha256Hex "s" ("1" ++ "." ++ "b")) "s" = false :=
  verify_composite_false "s" "1" "b" "s" ("1" ++ "." ++ "b")

/-- C3 (amended).  The verifier never inspects `t=`/`v1=` segments: it returns
false exactly for headers different from `hex(HMAC-SHA256(secret, body))`,
whatever segments they carry, and is total (never throws). -/
theorem claim_C3 (payload sig secret : String) (h : sig ≠ hmacSha256Hex secret payload) :
    verifyHashnodeSignature payload sig secret = false :=
  verify_of_ne h

theorem claim_C3_witness : verifyHashnodeSignature "b" "x" "s" = false :=
  claim_C3 "b" "x" "s" (fun h => by
    have hlen := congrArg String.length h
    rw [hmacSha256Hex_length] at hlen
    exact absurd hlen (by decide))

/-- C3 counterexample: the bare digest header for secret `"s"` and body `"b"`
lacks both the `t=` and the `v1=` segment, yet verifies (the claim demands
`false`). -/
theorem claim_C3_counterexample :
    containsSeg (hmacSha256Hex "s" "b") "t=" = false ∧
    containsSeg (hmacSha256Hex "s" "b") "v1=" = false ∧
    verifyHashnodeSignature "b" (hmacSha256Hex "s" "b") "s" = true := by
  have hhex : ∀ x : Char, isLowerHexChar x = false →
      ∀ c ∈ (hmacSha256Hex "s" "b").data, c ≠ x := by
    intro x hx c hc hcx
    subst hcx
    rw [mem_hmacSha256Hex_isHex hc] at hx
    exact absurd hx (by decide)
  refine ⟨?_, ?_, verify_self "s" "b"⟩
  · have h1 : ("t=").data = 't' :: '=' :: [] := rfl
    show hasSubChars (hmacSha256Hex "s" "b").data (("t=").data) = false
    rw [h1]
    exact hasSubChars_eq_false (hhex 't' (by decide))
  · have h1 : ("v1=").data = 'v' :: '1' :: '=' :: [] := rfl
    show hasSubChars (hmacSha256Hex "s" "b").data (("v1=").data) = false
    rw [h1]
    exact hasSubChars_eq_false (hhex 'v' (by decide))

/-! ### Facts about the webhook handler -/

lemma getProcessedTemplate_ok {resp : HttpResponse BrevoTemplateData}
    {params : List (String × String)} (h : resp.ok = true) :
    getProcessedTemplate resp params = .ok
      { htmlContent := substituteParams params resp.body.htmlContent,
        subject := substituteParams params resp.body.subject,
        sender := {
          name := orFalsy (resp.body.sender.bind (fun s => s.name)) "The Learning Machine",
          email := orFalsy (resp.body.sender.bind (fun s => s.email))
            "newsletter@thelearningmachine.dev" } } := by
  simp [getProcessedTemplate, h]

/-- C2 (amended).  When a secret is configured, a signature header is present,
and that header does not verify, the handler responds 401 and terminates
without parsing the body or consulting any outbound collaborator (for every
parser and every pair of collaborator responses).  When the header is missing
the verification block is skipped entirely and the request is processed
normally (see the counterexample), so only the bad-signature half of the
claim holds. -/
theorem claim_C2 (env : Env) (now : Nat) (rawBody : String) (sig : String)
    (parseJson : String → Except String HashnodeWebhookPayload)
    (templateResponse : HttpResponse BrevoTemplateData)
    (campaignResponse : CampaignCreateResponse)
    (hsecret : truthy env.hashnodeSecret = true)
    (hsig : sig ≠ "")
    (hbad : verifyHashnodeSignature rawBody sig (env.hashnodeSecret.getD "") = false) :
    POST env now rawBody (some sig) parseJson templateResponse campaignResponse =
      ⟨401, .unauthorized, []⟩ := by
  have h1 : (sig == "") = false := beq_eq_false_iff_ne.mpr hsig
  have h2 : truthy (some sig) = true := by simp [truthy, h1]
  simp [POST, hsecret, h2, hbad]

theorem claim_C2_witness :
    POST ⟨some "s", none, none, none⟩ 0 "body" (some "bad") (fun _ => .error "x")
      ⟨true, 200, ⟨"", "", none⟩⟩ ⟨true, none, none⟩ = ⟨401, .unauthorized, []⟩ :=
  claim_C2 ⟨some "s", none, none, none⟩ 0 "body" "bad" (fun _ => .error "x")
    ⟨true, 200, ⟨"", "", none⟩⟩ ⟨true, none, none⟩ rfl (by decide)
    (verify_of_ne (fun h => by
      have hlen := congrArg String.length h
      rw [hmacSha256Hex_length] at hlen
      exact absurd hlen (by decide)))

/-- C2 counterexample: with a secret configured and the signature header
missing, the handler does not respond 401 — verification is skipped and the
request proceeds (here: a deleted-event payload is acknowledged with 200
after parsing the body). -/
theorem claim_C2_counterexample :
    POST ⟨some "s", none, none, none⟩ 0 "raw" none
        (fun _ => .ok ⟨some "post_deleted", none⟩)
        ⟨true, 200, ⟨"", "", none⟩⟩ ⟨true, none, none⟩ =
      ⟨200, .eventIgnored (some "post_deleted"), [.parseBody]⟩ ∧
    (POST ⟨some "s", none, none, none⟩ 0 "raw" none
        (fun _ => .ok ⟨some "post_deleted", none⟩)
        ⟨true, 200, ⟨"", "", none⟩⟩ ⟨true, none, none⟩).status ≠ 401 := by
  decide

/-- C4.  Once the signature gate has passed (or been skipped) and the body has
parsed, every payload whose event kind is not `post_published` is acknowledged
with 200 and an "Event ignored" body, and the handler consults no collaborator
beyond the body parse — in particular neither the template fetch nor the
campaign creation (nor any post fetcher: the handler never performs one). -/
theorem claim_C4 (env : Env) (now : Nat) (rawBody : String) (signature : Option String)
    (parseJson : String → Except String HashnodeWebhookPayload)
    (templateResponse : HttpResponse BrevoTemplateData)
    (campaignResponse : CampaignCreateResponse)
    (payload : HashnodeWebhookPayload)
    (hauth : (truthy env.hashnodeSecret && truthy signature &&
        !verifyHashnodeSignature rawBody (signature.getD "") (env.hashnodeSecret.getD ""))
      = false)
    (hparse : parseJson rawBody = .ok payload)
    (hev : payload.event ≠ some "post_published") :
    POST env now rawBody signature parseJson templateResponse campaignResponse =
      ⟨200, .eventIgnored payload.event, [.parseBody]⟩ := by
  have hev' : (payload.event != some "post_published") = true := bne_iff_ne.mpr hev
  simp [POST, hauth, hparse, hev']

theorem claim_C4_witness :
    POST ⟨none, none, none, none⟩ 0 "raw" none (fun _ => .ok ⟨some "post_updated", none⟩)
      ⟨true, 200, ⟨"", "", none⟩⟩ ⟨true, none, none⟩ =
      ⟨200, .eventIgnored (some "post_updated"), [.parseBody]⟩ :=
  claim_C4 ⟨none, none, none, none⟩ 0 "raw" none (fun _ => .ok ⟨some "post_updated", none⟩)
    ⟨true, 200, ⟨"", "", none⟩⟩ ⟨true, none, none⟩ ⟨some "post_updated", none⟩
    rfl rfl (by decide)

/-- C5 (amended).  A body that fails to parse is caught by the top-level
`catch` and yields 500 (not the claimed 400) with the thrown message; a parsed
`post_published` payload missing a truthy title or slug yields 400.  Both
branches terminate after the parse with no outbound call. -/
theorem claim_C5 :
    (∀ (env : Env) (now : Nat) (rawBody : String) (signature : Option String)
        (parseJson : String → Except String HashnodeWebhookPayload)
        (templateResponse : HttpResponse BrevoTemplateData)
        (campaignResponse : CampaignCreateResponse) (e : String),
      (truthy env.hashnodeSecret && truthy signature &&
          !verifyHashnodeSignature rawBody (signature.getD "") (env.hashnodeSecret.getD ""))
        = false →
      parseJson rawBody = .error e →
      POST env now rawBody signature parseJson templateResponse campaignResponse =
        ⟨500, .caught e, [.parseBody]⟩) ∧
    (∀ (env : Env) (now : Nat) (rawBody : String) (signature : Option String)
        (parseJson : String → Except String HashnodeWebhookPayload)
        (templateResponse : HttpResponse BrevoTemplateData)
        (campaignResponse : CampaignCreateResponse) (payload : HashnodeWebhookPayload),
      (truthy env.hashnodeSecret && truthy signature &&
          !verifyHashnodeSignature rawBody (signature.getD "") (env.hashnodeSecret.getD ""))
        = false →
      parseJson rawBody = .ok payload →
      payload.event = some "post_published" →
      (!truthy (payload.post.bind (fun p => p.title)) ||
        !truthy (payload.post.bind (fun p => p.slug))) = true →
      POST env now rawBody signature parseJson templateResponse campaignResponse =
        ⟨400, .invalidPayload, [.parseBody]⟩) := by
  constructor
  · intro env now rawBody signature parseJson templateResponse campaignResponse e hauth hparse
    simp [POST, hauth, hparse]
  · intro env now rawBody signature parseJson templateResponse campaignResponse payload
      hauth hparse hev hval
    simp [POST, hauth, hparse, hev, hval]

theorem claim_C5_witness :
    POST ⟨none, none, none, none⟩ 0 "raw" none
      (fun _ => .ok ⟨some "post_published", some ⟨some "", some "t", none, none⟩⟩)
      ⟨true, 200, ⟨"", "", none⟩⟩ ⟨true, none, none⟩ =
      ⟨400, .invalidPayload, [.parseBody]⟩ :=
  claim_C5.2 ⟨none, none, none, none⟩ 0 "raw" none
    (fun _ => .ok ⟨some "post_published", some ⟨some "", some "t", none, none⟩⟩)
    ⟨true, 200, ⟨"", "", none⟩⟩ ⟨true, none, none⟩
    ⟨some "post_published", some ⟨some "", some "t", none, none⟩⟩
    rfl rfl rfl (by decide)

/-- C5 counterexample: a malformed body (parse throws) yields 500, not the
claimed 400. -/
theorem claim_C5_counterexample :
    POST ⟨none, none, none, none⟩ 0 "not json" none (fun _ => .error "Unexpected token")
        ⟨true, 200, ⟨"", "", none⟩⟩ ⟨true, none, none⟩ =
      ⟨500, .caught "Unexpected token", [.parseBody]⟩ ∧
    (POST ⟨none, none, none, none⟩ 0 "not json" none (fun _ => .error "Unexpected token")
        ⟨true, 200, ⟨"", "", none⟩⟩ ⟨true, none, none⟩).status ≠ 400 := by
  decide

/-- C7.  On a fully successful run — signature gate passed, body parsed,
`post_published` event with truthy title and slug, configuration present,
template fetch ok, campaign creation ok with a provider-assigned id — the
handler responds 200 with `success`, the provider's campaign id, and a
scheduled time exactly 4 minutes (240000 ms) after `now`, the request's
`Date.now()` reading. -/
theorem claim_C7 (env : Env) (now : Nat) (rawBody : String) (signature : Option String)
    (parseJson : String → Except String HashnodeWebhookPayload)
    (templateResponse : HttpResponse BrevoTemplateData)
    (campaignResponse : CampaignCreateResponse)
    (payload : HashnodePost) (event : Option String) (cid : String)
    (hauth : (truthy env.hashnodeSecret && truthy signature &&
        !verifyHashnodeSignature rawBody (signature.getD "") (env.hashnodeSecret.getD ""))
      = false)
    (hparse : parseJson rawBody = .ok ⟨event, some payload⟩)
    (hev : event = some "post_published")
    (htitle : truthy payload.title = true)
    (hslug : truthy payload.slug = true)
    (hconf : (!truthy env.brevoApiKey || !truthy env.brevoListId ||
        !truthy env.brevoTemplateId) = false)
    (hok : templateResponse.ok = true)
    (hcok : campaignResponse.ok = true)
    (hcid : campaignResponse.id = some cid) :
    (POST env now rawBody signature parseJson templateResponse campaignResponse).status
      = 200 ∧
    (POST env now rawBody signature parseJson templateResponse campaignResponse).body
      = .success (some cid) (now + 4 * 60 * 1000) (payload.title.getD "") := by
  constructor <;>
    simp [POST, hauth, hparse, hev, htitle, hslug, hconf,
      getProcessedTemplate_ok hok, hcok, hcid]

theorem claim_C7_witness :
    (POST ⟨none, some "k", some "1", some "2"⟩ 1000 "raw" none
        (fun _ => .ok ⟨some "post_published", some ⟨some "T", some "t", some "B", none⟩⟩)
        ⟨true, 200, ⟨"Hi", "Subj", none⟩⟩ ⟨true, none, some "c1"⟩).status = 200 ∧
    (POST ⟨none, some "k", some "1", some "2"⟩ 1000 "raw" none
        (fun _ => .ok ⟨some "post_published", some ⟨some "T", some "t", some "B", none⟩⟩)
        ⟨true, 200, ⟨"Hi", "Subj", none⟩⟩ ⟨true, none, some "c1"⟩).body
      = .success (some "c1") 241000 "T" :=
  claim_C7 ⟨none, some "k", some "1", some "2"⟩ 1000 "raw" none
    (fun _ => .ok ⟨some "post_published", some ⟨some "T", some "t", some "B", none⟩⟩)
    ⟨true, 200, ⟨"Hi", "Subj", none⟩⟩ ⟨true, none, some "c1"⟩
    ⟨some "T", some "t", some "B", none⟩ (some "post_published") "c1"
    rfl rfl rfl (by decide) (by decide) (by decide) rfl rfl rfl

/-- C8.  When the campaign-creation response is not ok, the handler responds
500 with an `error` body carrying the upstream error details, no campaign id
is returned (the failure body has no id field), and exactly one
campaign-creation submission was made (no retry). -/
theorem claim_C8 (env : Env) (now : Nat) (rawBody : String) (signature : Option String)
    (parseJson : String → Except String HashnodeWebhookPayload)
    (templateResponse : HttpResponse BrevoTemplateData)
    (campaignResponse : CampaignCreateResponse)
    (payload : HashnodePost) (event : Option String)
    (hauth : (truthy env.hashnodeSecret && truthy signature &&
        !verifyHashnodeSignature rawBody (signature.getD "") (env.hashnodeSecret.getD ""))
      = false)
    (hparse : parseJson rawBody = .ok ⟨event, some payload⟩)
    (hev : event = some "post_published")
    (htitle : truthy payload.title = true)
    (hslug : truthy payload.slug = true)
    (hconf : (!truthy env.brevoApiKey || !truthy env.brevoListId ||
        !truthy env.brevoTemplateId) = false)
    (hok : templateResponse.ok = true)
    (hcbad : campaignResponse.ok = false) :
    (POST env now rawBody signature parseJson templateResponse campaignResponse).status
      = 500 ∧
    (POST env now rawBody signature parseJson templateResponse campaignResponse).body
      = .campaignFailed campaignResponse.errorJson ∧
    ((POST env now rawBody signature parseJson templateResponse campaignResponse).calls.countP
        isCampaignCreateCall) = 1 := by
  refine ⟨?_, ?_, ?_⟩ <;>
    simp [POST, hauth, hparse, hev, htitle, hslug, hconf,
      getProcessedTemplate_ok hok, hcbad, List.countP_cons, isCampaignCreateCall]

theorem claim_C8_witness :
    (POST ⟨none, some "k", some "1", some "2"⟩ 1000 "raw" none
        (fun _ => .ok ⟨some "post_published", some ⟨some "T", some "t", some "B", none⟩⟩)
        ⟨true, 200, ⟨"Hi", "Subj", none⟩⟩ ⟨false, some "errbody", none⟩).status = 500 ∧
    (POST ⟨none, some "k", some "1", some "2"⟩ 1000 "raw" none
        (fun _ => .ok ⟨some "post_published", some ⟨some "T", some "t", some "B", none⟩⟩)
        ⟨true, 200, ⟨"Hi", "Subj", none⟩⟩ ⟨false, some "errbody", none⟩).body
      = .campaignFailed (some "errbody") ∧
    ((POST ⟨none, some "k", some "1", some "2"⟩ 1000 "raw" none
        (fun _ => .ok ⟨some "post_published", some ⟨some "T", some "t", some "B", none⟩⟩)
        ⟨true, 200, ⟨"Hi", "Subj", none⟩⟩ ⟨false, some "errbody", none⟩).calls.countP
          isCampaignCreateCall) = 1 :=
  claim_C8 ⟨none, some "k", some "1", some "2"⟩ 1000 "raw" none
    (fun _ => .ok ⟨some "post_published", some ⟨some "T", some "t", some "B", none⟩⟩)
    ⟨true, 200, ⟨"Hi", "Subj", none⟩⟩ ⟨false, some "errbody", none⟩
    ⟨some "T", some "t", some "B", none⟩ (some "post_published")
    rfl rfl rfl (by decide) (by decide) (by decide) rfl rfl

/-! ### Facts about placeholder substitution -/

lemma replaceAllPh_no_occ {key v : List Char} :
    ∀ (fuel : Nat) (l : List Char), phOccurs key l = false → replaceAllPh key v fuel l = l := by
  intro fuel
  induction fuel with
  | zero => intro l _; cases l <;> rfl
  | succ fuel ih =>
      intro l h
      cases l with
      | nil => rfl
      | cons c cs =>
          simp only [phOccurs] at h
          cases hmc : matchParamPh key (c :: cs) with
          | some r => rw [hmc] at h; simp at h
          | none =>
              rw [hmc] at h
              simp only [Option.isSome_none, Bool.false_or] at h
              simp [replaceAllPh, hmc, ih cs h]

lemma asString_data (s : String) : s.data.asString = s := rfl

lemma replacePlaceholder_no_occ {s key v : String} (h : hasPlaceholder key s = false) :
    replacePlaceholder s key v = s := by
  unfold replacePlaceholder
  rw [replaceAllPh_no_occ _ _ h, asString_data]

lemma substituteParams_no_occ :
    ∀ (params : List (String × String)) (s : String),
      (∀ kv ∈ params, hasPlaceholder kv.1 s = false) → substituteParams params s = s := by
  intro params
  induction params with
  | nil => intro s _; rfl
  | cons kv rest ih =>
      intro s h
      show substituteParams rest (replacePlaceholder s kv.1 kv.2) = s
      rw [replacePlaceholder_no_occ (h kv (by simp))]
      exact ih s (fun kv' hkv' => h kv' (List.mem_cons_of_mem _ hkv'))

/-- C6.  Placeholder substitution: the concrete examples of the claim
(including multiple occurrences and whitespace tolerance), substitution with
empty params is the identity, params whose placeholder does not occur in the
template are silently ignored, placeholders with no matching param stay
verbatim, and substitution itself never fails (template processing succeeds on
every ok fetch). -/
theorem claim_C6 :
    (∀ (resp : HttpResponse BrevoTemplateData) (params : List (String × String)),
        resp.ok = true → ∃ t, getProcessedTemplate resp params = .ok t) ∧
    (substituteParams [("title", "X")] "Hello \x7b\x7b params.title \x7d\x7d" = "Hello X") ∧
    (∀ s : String, substituteParams [] s = s) ∧
    (substituteParams [("title", "X")]
        "A \x7b\x7bparams.title\x7d\x7d B \x7b\x7b   params.title \x7d\x7d" = "A X B X") ∧
    (substituteParams [("title", "X")] "Hi \x7b\x7b params.author \x7d\x7d" =
        "Hi \x7b\x7b params.author \x7d\x7d") ∧
    (∀ (s : String) (params : List (String × String)),
        (∀ kv ∈ params, hasPlaceholder kv.1 s = false) → substituteParams params s = s) :=
  ⟨fun resp params h => ⟨_, getProcessedTemplate_ok h⟩,
   by decide, fun _ => rfl, by decide, by decide,
   fun s params h => substituteParams_no_occ params s h⟩

theorem claim_C6_witness :
    (∃ t, getProcessedTemplate ⟨true, 200, ⟨"Body", "Subj", none⟩⟩ [("title", "X")]
        = Except.ok t) ∧
    substituteParams [("k", "V")] "plain text" = "plain text" :=
  ⟨claim_C6.1 ⟨true, 200, ⟨"Body", "Subj", none⟩⟩ [("title", "X")] rfl,
   claim_C6.2.2.2.2.2 "plain text" [("k", "V")] (by decide)⟩

/-- C9.  `getAdjacentPosts`: when no post carries the slug the result is
`{older := null, newer := null}`; when the first post carrying the slug sits at
index `i`, `newer` is the post at `i - 1` (null at `i = 0`) and `older` the
post at `i + 1` (null at the last index). -/
theorem claim_C9 :
    (∀ (posts : List Post) (slug : String),
        (∀ p ∈ posts, p.slug ≠ slug) →
        getAdjacentPosts posts slug = ⟨none, none⟩) ∧
    (∀ (posts : List Post) (slug : String) (i : Nat) (hi : i < posts.length),
        (posts.get ⟨i, hi⟩).slug = slug →
        (∀ j (hj : j < i), (posts.get ⟨j, Nat.lt_trans hj hi⟩).slug ≠ slug) →
        (0 < i → (getAdjacentPosts posts slug).newer = some (posts.get ⟨i - 1, by omega⟩)) ∧
        (i = 0 → (getAdjacentPosts posts slug).newer = none) ∧
        (∀ hlt : i < posts.length - 1,
          (getAdjacentPosts posts slug).older = some (posts.get ⟨i + 1, by omega⟩)) ∧
        (posts.length - 1 ≤ i → (getAdjacentPosts posts slug).older = none)) := by
  constructor
  · intro posts slug h
    have hn : posts.findIdx? (fun p => p.slug == slug) = none :=
      List.findIdx?_eq_none_iff.mpr (fun x hx => beq_eq_false_iff_ne.mpr (h x hx))
    simp [getAdjacentPosts, hn]
  · intro posts slug i hi hslug hfirst
    have hs : posts.findIdx? (fun p => p.slug == slug) = some i := by
      rw [List.findIdx?_eq_some_iff_getElem]
      refine ⟨hi, ?_, ?_⟩
      · simpa [List.get_eq_getElem] using beq_iff_eq.mpr hslug
      · intro j hji
        have hj2 : j < posts.length := Nat.lt_trans hji hi
        have := hfirst j hji
        simp only [List.get_eq_getElem] at this
        simp [this]
    refine ⟨?_, ?_, ?_, ?_⟩
    · intro hpos
      have hlt : i - 1 < posts.length := by omega
      simp [getAdjacentPosts, hs, hpos, List.get?_eq_get hlt]
    · intro h0
      subst h0
      simp [getAdjacentPosts, hs]
    · intro hlt
      have hlt2 : i + 1 < posts.length := by omega
      simp [getAdjacentPosts, hs, hlt, List.get?_eq_get hlt2]
    · intro hge
      have : ¬(i < posts.length - 1) := by omega
      simp [getAdjacentPosts, hs, this]

theorem claim_C9_witness :
    (getAdjacentPosts [⟨"1", "a"⟩, ⟨"2", "b"⟩, ⟨"3", "c"⟩] "b").newer = some ⟨"1", "a"⟩ ∧
    (getAdjacentPosts [⟨"1", "a"⟩, ⟨"2", "b"⟩, ⟨"3", "c"⟩] "b").older = some ⟨"3", "c"⟩ ∧
    getAdjacentPosts [⟨"1", "a"⟩, ⟨"2", "b"⟩, ⟨"3", "c"⟩] "zz" = ⟨none, none⟩ := by
  have h2 := claim_C9.2 [⟨"1", "a"⟩, ⟨"2", "b"⟩, ⟨"3", "c"⟩] "b" 1 (by decide)
    (by decide) (fun j hj => by
      have h0 : j = 0 := by omega
      subst h0
      simp [List.get_cons_zero])
  exact ⟨h2.1 (by decide), (h2.2.2.1 (by decide)),
    claim_C9.1 [⟨"1", "a"⟩, ⟨"2", "b"⟩, ⟨"3", "c"⟩] "zz" (fun p hp => by
      fin_cases hp <;> decide)⟩

/-! ### Facts about heading extraction -/

lemma matchHeadingAt_digit {cs : List Char} {d : Char} {idc raw : String} {rest : List Char}
    (h : matchHeadingAt cs = some (d, idc, raw, rest)) : isHeadingDigit d = true := by
  unfold matchHeadingAt at h
  split at h
  · rename_i hch dch rest'
    split at h
    · rename_i hguard
      rcases Option.map_eq_some'.mp h with ⟨m, _, hmeq⟩
      have hd : dch = d := congrArg (fun q => q.1) hmeq
      subst hd
      simp only [Bool.and_eq_true] at hguard
      exact hguard.2
    · exact absurd h (by simp)
  · exact absurd h (by simp)

lemma isHeadingDigit_depth {d : Char} (h : isHeadingDigit d = true) :
    2 ≤ d.toNat - 48 ∧ d.toNat - 48 ≤ 6 := by
  simp only [isHeadingDigit, Bool.or_eq_true, beq_iff_eq] at h
  rcases h with ((((h | h) | h) | h) | h) <;> subst h <;> decide

lemma headingScan_mem :
    ∀ (fuel : Nat) (l : List Char) (h : ExtractedHeading),
      h ∈ headingScan fuel l → 2 ≤ h.depth ∧ h.depth ≤ 6 ∧ h.text ≠ "" := by
  intro fuel
  induction fuel with
  | zero => intro l h hm; simp [headingScan] at hm
  | succ fuel ih =>
      intro l h hm
      cases l with
      | nil => simp [headingScan] at hm
      | cons c cs =>
          rw [headingScan] at hm
          cases hmc : matchHeadingAt (c :: cs) with
          | none => rw [hmc] at hm; exact ih cs h hm
          | some m =>
              obtain ⟨d, idc, raw, rest⟩ := m
              rw [hmc] at hm
              simp only [List.mem_append] at hm
              rcases hm with hm | hm
              · split at hm
                · simp at hm
                · rename_i htext
                  simp only [List.mem_singleton] at hm
                  subst hm
                  have hdig := isHeadingDigit_depth (matchHeadingAt_digit hmc)
                  refine ⟨hdig.1, hdig.2, ?_⟩
                  simpa using htext
              · exact ih rest h hm

/-- C10.  Every heading extracted from any HTML string has a depth between 2
and 6 and a non-empty tag-stripped text (empty-text headings are dropped), and
the empty input yields the empty list. -/
theorem claim_C10 :
    extractHeadingsFromHtml "" = [] ∧
    (∀ (html : String) (h : ExtractedHeading), h ∈ extractHeadingsFromHtml html →
      2 ≤ h.depth ∧ h.depth ≤ 6 ∧ h.text ≠ "") := by
  refine ⟨rfl, ?_⟩
  intro html h hm
  unfold extractHeadingsFromHtml at hm
  split at hm
  · simp at hm
  · exact headingScan_mem _ _ h hm

theorem claim_C10_witness :
    2 ≤ (ExtractedHeading.mk 2 "hi" "Hi").depth ∧
    (ExtractedHeading.mk 2 "hi" "Hi").depth ≤ 6 ∧
    (ExtractedHeading.mk 2 "hi" "Hi").text ≠ "" :=
  claim_C10.2 "<h2>Hi</h2>" ⟨2, "hi", "Hi"⟩ (by decide)

end Blog
